import Mathlib

/-!
Verification of the per-block statistics engine of the mainnet-observer
backend (`src/backend/src/stats.rs`) and of the sync orchestrator's height
planning (`src/backend/src/lib.rs`).

The block data model (`crate::rest`: `Block`, `InputData`,
`ScriptPubkeyType`, ...) is not part of the sources; those types are
modelled from the specification's data-model section. External library
values consumed opaquely by the statistics code (the rawtx-rs input
classification, a script's `minimal_non_dust()` threshold, the decoded
consensus transaction) are carried as data on the modelled block, since
the statistics code only ever reads them.

Machine integers are modelled as `Nat`/`Int`; the one place where
fixed-width overflow is semantically relevant (the `u64` subtraction in
the orchestrator's fetch-height computation) models the wrap-around
explicitly.
-/

namespace MainnetObserver

/-- Modelled from the spec: the prevout script-type tag delivered by
the node adapter (`crate::rest::ScriptPubkeyType`, not under `src/`).
The statistics code only discriminates the anchor variant. -/
inductive ScriptPubkeyType : Type
  | anchor
  | other
deriving DecidableEq, Repr

/-- Modelled from the spec: the prevout snapshot attached to each
non-coinbase input by the node adapter: value (sat), script type tag,
and the height at which the prevout was confirmed (0 when the prevout
was created in the current block). -/
structure Prevout : Type where
  value : Nat
  spk_type : ScriptPubkeyType
  height : Int
deriving DecidableEq, Repr

/-- Modelled from the spec: `crate::rest::InputData` — a coinbase input,
or a non-coinbase input carrying the spent txid, output index, and the
prevout snapshot. Txids are modelled as natural numbers. -/
inductive InputData : Type
  | coinbase
  | nonCoinbase (txid : Nat) (vout : Nat) (prevout : Prevout)
deriving DecidableEq, Repr

/-- The rawtx-rs 15-way input-type discriminant (`rawtx_rs::input::InputType`),
exactly the variants matched in `InputStats::from_block`. -/
inductive InputType : Type
  | p2pk | p2pkLaxDer | p2pkh | p2pkhLaxDer | p2shP2wpkh | p2wpkh
  | p2ms | p2msLaxDer | p2sh | p2shP2wsh | p2wsh
  | coinbase | coinbaseWitness | p2trkp | p2trsp | p2a | unknown
deriving DecidableEq, Repr

/-- The rawtx-rs signature kind (`rawtx_rs::script::SignatureType`):
Schnorr or ECDSA. -/
inductive SignatureType : Type
  | schnorr
  | ecdsa
deriving DecidableEq, Repr

/-- A signature record of rawtx-rs (`SignatureInfo`), restricted to the
fields that decide `ScriptStats::from_block`'s control flow: the kind and
the byte length (the DER/low-high/sighash fields feed only unclaimed
counters). An ECDSA record of length < 8 makes the source panic. -/
structure SignatureInfo : Type where
  signature : SignatureType
  length : Nat
deriving DecidableEq, Repr

/-- The per-input analytical record of rawtx-rs (`InputInfo`), restricted
to the fields the statistics code's outcome depends on: `in_type` (the
input-type buckets and `inputs_unknown`) and `signature_info` (whose
ECDSA lengths can make `ScriptStats::from_block` panic). The pubkey
inventory feeds only unclaimed counters. -/
structure InputInfo : Type where
  in_type : InputType
  signature_info : List SignatureInfo
deriving DecidableEq, Repr

/-- A transaction output as the statistics code reads it: value in sat, the
output index `n`, and the script — abstracted by the one attribute the code
derives from it, `script_pub_key.script.minimal_non_dust()`. -/
structure TxOut : Type where
  value : Nat
  minimal_non_dust : Nat
  n : Nat
deriving DecidableEq, Repr

/-- The consensus transaction obtained by
`bitcoin::consensus::deserialize(&tx.raw)`, restricted to what
`BlockStats::from_block` and `Stats::from_block` read: the lock-time's
consensus `u32`, the input sequence values, and whether
`rawtx_rs::TxInfo::new` succeeds on it. -/
structure ConsensusTx : Type where
  lockTime : Nat
  inputSequences : List Nat
  txInfoOk : Bool
deriving DecidableEq, Repr

/-- Modelled from the spec: a transaction of `rest::Block::txdata`.
`raw` is the result of consensus-deserializing the raw bytes (`none`
models undecodable bytes, surfaced as `StatsError::BitcoinEncode`).
`fee` is absent exactly for the coinbase. Fields feeding only unclaimed
counters (`size`, the rest-level lock-time, output value sums, ...)
are omitted. -/
structure BlockTx : Type where
  txid : Nat
  version : Int
  fee : Option Nat
  vsize : Nat
  raw : Option ConsensusTx
  input : List InputData
  output : List TxOut
  inputInfos : List InputInfo
deriving DecidableEq, Repr

/-- Modelled from the spec: `crate::rest::Block`. `time` is the raw header
time in Unix seconds (u64). `bits_ok` / `bits_radix_ok` record whether
`CompactTarget::from_unprefixed_hex(&bits)` and
`i32::from_str_radix(&bits, 16)` succeed on the compact-target hex string. -/
structure Block : Type where
  height : Int
  time : Nat
  bits_ok : Bool
  bits_radix_ok : Bool
  txdata : List BlockTx
deriving DecidableEq, Repr

/-- `stats.rs` `StatsError`: the four declared parse/decode failure kinds. -/
inductive StatsError : Type
  | txInfo
  | bitcoinEncode
  | parseInt
  | unprefixedHex
deriving DecidableEq, Repr

/-- Outcome of running a Rust function that may panic: a panic with its
message, a returned `Err`, or a returned `Ok`. -/
inductive RunResult (α : Type) : Type
  | panics (msg : String)
  | err (e : StatsError)
  | ok (a : α)
deriving DecidableEq, Repr

/-- Insert into a list used with set semantics (`HashSet::insert` /
`HashSet::extend`): a no-op when the element is already present. -/
def insertOnce {α : Type} [DecidableEq α] (x : α) (l : List α) : List α :=
  if x ∈ l then l else x :: l

theorem mem_insertOnce {α : Type} [DecidableEq α] (a x : α) (l : List α) :
    a ∈ insertOnce x l ↔ a = x ∨ a ∈ l := by
  unfold insertOnce
  by_cases h : x ∈ l
  · simp only [if_pos h]
    constructor
    · exact Or.inr
    · rintro (rfl | ha)
      · exact h
      · exact ha
  · simp [if_neg h]

/-! ## TxStats (`TxStats::from_block`)

The embedding covers the counters the claims are about,
`tx_spending_newly_created_utxos` and `tx_spending_ephemeral_dust`,
together with the full staged-ephemeral-dust-outpoint state machine they
depend on. The remaining `TxStats` counters (version buckets, spend-type
buckets, timelock buckets, ...) are independent per-transaction counts that
no claim consults and are omitted. -/

/-- The value of Rust `tx.fee.unwrap()` at `stats.rs:415` on executions
that do not panic. The unwrap itself panics on an absent fee; that panic
path is modelled by `processInputsRun` (the run-level scan used by
`Stats.from_block`). On non-panicking executions the fee is present and
the two agree, so the flag recursions below use this value function. -/
def feeUnwrap (fee : Option Nat) : Nat := fee.getD 0

/-- The per-transaction static conjuncts of the ephemeral-dust spending
check: `tx.version == 3 && tx.fee.unwrap() != Amount::ZERO && tx.vsize <= 1_000`. -/
def ephSpendCriteria (tx : BlockTx) : Bool :=
  decide (tx.version = 3) && decide (feeUnwrap tx.fee ≠ 0) && decide (tx.vsize ≤ 1000)

/-- The input scan of `TxStats::from_block` (stats.rs lines 400–423) for one
transaction: walks the non-coinbase inputs in order, or-accumulating the
`tx_spending_newly_created_utxos` and `tx_spending_ephemeral_dust` flags;
`HashSet::take` removes a referenced staged outpoint from `eph`
unconditionally, before the `&&` criteria are evaluated; the loop breaks
early once `(eph_flag || eph.is_empty()) && newly_flag`.
Returns (newly flag, ephemeral-dust flag, remaining staged outpoints). -/
def processInputs (tx : BlockTx) (txids : List Nat) :
    Bool → Bool → List (Nat × Nat) → List InputData → Bool × Bool × List (Nat × Nat)
  | newly, ephF, eph, [] => (newly, ephF, eph)
  | newly, ephF, eph, InputData.coinbase :: rest =>
      processInputs tx txids newly ephF eph rest
  | newly, ephF, eph, InputData.nonCoinbase t v _ :: rest =>
      let newly' := newly || decide (t ∈ txids)
      let taken := decide ((t, v) ∈ eph)
      let eph' := eph.erase (t, v)
      let ephF' := ephF || (taken && ephSpendCriteria tx)
      if (ephF' || eph'.isEmpty) && newly' then (newly', ephF', eph')
      else processInputs tx txids newly' ephF' eph' rest

/-- The sub-dust outpoints a candidate producer would stage
(stats.rs lines 435–442): outputs whose value is strictly below the dust
threshold of their scriptPubKey, tagged with the producing txid and index. -/
def dustOutpoints (tx : BlockTx) : List (Nat × Nat) :=
  (tx.output.filter fun o => decide (o.value < o.minimal_non_dust)).map
    fun o => (tx.txid, o.n)

/-- The producer guard of the staging rule:
`tx.version == 3 && tx.fee == Some(Amount::ZERO) && tx.vsize <= 10_000`. -/
def ephStageCriteria (tx : BlockTx) : Bool :=
  decide (tx.version = 3) && decide (tx.fee = some 0) && decide (tx.vsize ≤ 10000)

/-- The staging step of `TxStats::from_block` (stats.rs lines 431–450): a
qualifying producer with exactly one sub-dust output stages that single
outpoint; a producer with more than one sub-dust output stages nothing. -/
def stagingStep (eph : List (Nat × Nat)) (tx : BlockTx) : List (Nat × Nat) :=
  if ephStageCriteria tx then
    let staged := dustOutpoints tx
    if staged.length = 1 then staged.foldl (fun acc p => insertOnce p acc) eph
    else eph
  else eph

/-- The two claimed `TxStats` counters. -/
structure TxStats : Type where
  tx_spending_newly_created_utxos : Nat
  tx_spending_ephemeral_dust : Nat
deriving DecidableEq, Repr

/-- The transaction loop of `TxStats::from_block`: per transaction, scan the
inputs (flags and staged-set consumption), bump the two counters, insert the
transaction's txid into the seen set, then run the staging step. -/
def txScan (txids : List Nat) (eph : List (Nat × Nat)) (s : TxStats) :
    List BlockTx → TxStats
  | [] => s
  | tx :: rest =>
      let r := processInputs tx txids false false eph tx.input
      let s' : TxStats :=
        { tx_spending_newly_created_utxos :=
            s.tx_spending_newly_created_utxos + (if r.1 then 1 else 0)
          tx_spending_ephemeral_dust :=
            s.tx_spending_ephemeral_dust + (if r.2.1 then 1 else 0) }
      txScan (insertOnce tx.txid txids) (stagingStep r.2.2 tx) s' rest

/-- `TxStats::from_block`, restricted to the claimed counters. -/
def TxStats.from_block (b : Block) : TxStats :=
  txScan [] [] ⟨0, 0⟩ b.txdata

/-- The input scan with its panic path: in
`take(..).is_some() && tx.version == 3 && tx.fee.unwrap() != Amount::ZERO && ...`
the unwrap is evaluated (and panics on an absent fee) exactly when the take
succeeded and the version is 3, after the take already removed the
outpoint. On non-panicking inputs this agrees with `processInputs`. The
panic message abridges Rust's unwrap-on-None message. -/
def processInputsRun (tx : BlockTx) (txids : List Nat) :
    Bool → Bool → List (Nat × Nat) → List InputData →
      RunResult (Bool × Bool × List (Nat × Nat))
  | newly, ephF, eph, [] => RunResult.ok (newly, ephF, eph)
  | newly, ephF, eph, InputData.coinbase :: rest =>
      processInputsRun tx txids newly ephF eph rest
  | newly, ephF, eph, InputData.nonCoinbase t v _ :: rest =>
      let newly' := newly || decide (t ∈ txids)
      let taken := decide ((t, v) ∈ eph)
      let eph' := eph.erase (t, v)
      if taken && decide (tx.version = 3) && decide (tx.fee = none) then
        RunResult.panics "called Option unwrap on a None value"
      else
        let ephF' := ephF || (taken && ephSpendCriteria tx)
        if (ephF' || eph'.isEmpty) && newly' then RunResult.ok (newly', ephF', eph')
        else processInputsRun tx txids newly' ephF' eph' rest

/-- The transaction loop of `TxStats::from_block` with the unwrap panic
threaded through. -/
def txScanRun (txids : List Nat) (eph : List (Nat × Nat)) (s : TxStats) :
    List BlockTx → RunResult TxStats
  | [] => RunResult.ok s
  | tx :: rest =>
      match processInputsRun tx txids false false eph tx.input with
      | RunResult.panics m => RunResult.panics m
      | RunResult.err e => RunResult.err e
      | RunResult.ok r =>
          txScanRun (insertOnce tx.txid txids) (stagingStep r.2.2 tx)
            { tx_spending_newly_created_utxos :=
                s.tx_spending_newly_created_utxos + (if r.1 then 1 else 0)
              tx_spending_ephemeral_dust :=
                s.tx_spending_ephemeral_dust + (if r.2.1 then 1 else 0) } rest

/-- `TxStats::from_block` as a run: the counters of `TxStats.from_block`,
or the `tx.fee.unwrap()` panic. -/
def TxStats.from_block_run (b : Block) : RunResult TxStats :=
  txScanRun [] [] ⟨0, 0⟩ b.txdata

/-- A coinbase input discriminator. -/
def isCoinbaseInput : InputData → Bool
  | InputData.coinbase => true
  | InputData.nonCoinbase _ _ _ => false

/-- The adapter's fee discipline (spec data model: the per-tx fee is absent
exactly for the coinbase): every transaction whose inputs are not all
coinbase carries a fee. -/
def feeWF (b : Block) : Bool :=
  b.txdata.all fun tx => decide (tx.fee ≠ none) || tx.input.all isCoinbaseInput

/-! ## InputStats (`InputStats::from_block`)

Claimed counters: the anchor second pass (`inputs_p2a`, `inputs_p2a_dust`,
`inputs_unknown`) and the UTXO-age counters (`inputs_spend_in_same_block`,
`inputs_spending_prev_{1,6,144,2016}_blocks`). The spending-pattern buckets
and the other 13 input-type buckets are independent counts no claim consults
and are omitted; of the first-pass input-type match only the
`Unknown | P2a` arm (feeding `inputs_unknown`) is kept. -/

/-- `P2A_DUST_THRESHOLD` (stats.rs line 20). -/
def P2A_DUST_THRESHOLD : Nat := 240

/-- The claimed `InputStats` counters. The columns are signed `i32`; all
but `inputs_unknown` are only ever incremented and are carried as `Nat`;
`inputs_unknown` is also decremented (by the anchor second pass) and may
go negative on adversarial data, so it is carried as `Int`. -/
structure InputStats : Type where
  inputs_p2a : Nat
  inputs_p2a_dust : Nat
  inputs_unknown : Int
  inputs_spend_in_same_block : Nat
  inputs_spending_prev_1_blocks : Nat
  inputs_spending_prev_6_blocks : Nat
  inputs_spending_prev_144_blocks : Nat
  inputs_spending_prev_2016_blocks : Nat
deriving DecidableEq, Repr

/-- All counters zero (`Self { height, date, ..Default::default() }`). -/
def InputStats.init : InputStats := ⟨0, 0, 0, 0, 0, 0, 0, 0⟩

/-- First pass of `InputStats::from_block` (stats.rs lines 702–716): the
15-way match on `input.in_type`; the `Unknown | P2a` arm increments
`inputs_unknown`; every other arm updates only omitted counters. -/
def inputInfoStep (s : InputStats) (ii : InputInfo) : InputStats :=
  match ii.in_type with
  | InputType.unknown | InputType.p2a =>
      { s with inputs_unknown := s.inputs_unknown + 1 }
  | _ => s

/-- Second pass of `InputStats::from_block` (stats.rs lines 718–754) for one
input: the same-block check against the block's full txid set, the anchor
reclassification, and the confirmation-age bucket increments. -/
def prevoutStep (height : Int) (txids : List Nat) (s : InputStats) :
    InputData → InputStats
  | InputData.coinbase => s
  | InputData.nonCoinbase t _ po =>
      let s1 := if t ∈ txids then
          { s with inputs_spend_in_same_block := s.inputs_spend_in_same_block + 1 }
        else s
      let s2 := if po.spk_type = ScriptPubkeyType.anchor then
          let sa := { s1 with inputs_p2a := s1.inputs_p2a + 1
                              inputs_unknown := s1.inputs_unknown - 1 }
          if po.value < P2A_DUST_THRESHOLD then
            { sa with inputs_p2a_dust := sa.inputs_p2a_dust + 1 }
          else sa
        else s1
      let confirmation_age : Int := if t ∈ txids then 0 else height - po.height
      let s3 := if confirmation_age ≤ 1 then
          { s2 with inputs_spending_prev_1_blocks := s2.inputs_spending_prev_1_blocks + 1 }
        else s2
      let s4 := if confirmation_age ≤ 6 then
          { s3 with inputs_spending_prev_6_blocks := s3.inputs_spending_prev_6_blocks + 1 }
        else s3
      let s5 := if confirmation_age ≤ 144 then
          { s4 with inputs_spending_prev_144_blocks := s4.inputs_spending_prev_144_blocks + 1 }
        else s4
      if confirmation_age ≤ 2016 then
        { s5 with inputs_spending_prev_2016_blocks := s5.inputs_spending_prev_2016_blocks + 1 }
      else s5

/-- The per-transaction body of `InputStats::from_block`: the first pass over
the rawtx-rs `input_infos`, then the second pass over the rest-level inputs. -/
def inputTxStep (height : Int) (txids : List Nat) (s : InputStats) (tx : BlockTx) :
    InputStats :=
  tx.input.foldl (prevoutStep height txids) (tx.inputInfos.foldl inputInfoStep s)

/-- The block's full txid set
(`block.txdata.iter().map(|tx| tx.txid).collect()`). -/
def blockTxids (b : Block) : List Nat := b.txdata.map (·.txid)

/-- `InputStats::from_block`, restricted to the claimed counters. -/
def InputStats.from_block (b : Block) : InputStats :=
  b.txdata.foldl (inputTxStep b.height (blockTxids b)) InputStats.init

/-! ## FeerateStats (`FeerateStats::from_block`)

Claimed counters: `zero_fee_tx`, `below_1_sat_vbyte` and the ten feerate
bands. The fee/size/feerate quantiles, min/max/avg/sum fields are floating
point aggregates no claim consults and are omitted.

The source computes `feerate = fee_sat as f64 / vsize as f64` and matches
it against half-open bands with integer endpoints. The band selection is
modelled with exact integer comparisons `fee < k * vsize`; `vsize = 0`
(feerate NaN for fee 0, +inf otherwise) falls through every range pattern
to the `_` arm, exactly as the f64 match does. -/

/-- The claimed `FeerateStats` counters. -/
structure FeerateStats : Type where
  zero_fee_tx : Nat
  below_1_sat_vbyte : Nat
  feerate_1_2_sat_vbyte : Nat
  feerate_2_5_sat_vbyte : Nat
  feerate_5_10_sat_vbyte : Nat
  feerate_10_25_sat_vbyte : Nat
  feerate_25_50_sat_vbyte : Nat
  feerate_50_100_sat_vbyte : Nat
  feerate_100_250_sat_vbyte : Nat
  feerate_250_500_sat_vbyte : Nat
  feerate_500_1000_sat_vbyte : Nat
  feerate_1000_plus_sat_vbyte : Nat
deriving DecidableEq, Repr

/-- All counters zero. -/
def FeerateStats.init : FeerateStats := ⟨0, 0, 0, 0, 0, 0, 0, 0, 0, 0, 0, 0⟩

/-- The arms of the feerate band match (stats.rs lines 1079–1091). -/
inductive FeeBand : Type
  | below1 | b1_2 | b2_5 | b5_10 | b10_25 | b25_50
  | b50_100 | b100_250 | b250_500 | b500_1000 | b1000plus
deriving DecidableEq, Repr

/-- Band selection for `feerate = fee / vsize`: the guard `x if x < 1.0`,
the half-open ranges `1.0..2.0`, ..., `500.0..1000.0`, and the `_`
catch-all (which also receives NaN and +inf when `vsize = 0`). -/
def feeBandOf (fee vsize : Nat) : FeeBand :=
  if vsize = 0 then FeeBand.b1000plus
  else if fee < 1 * vsize then FeeBand.below1
  else if fee < 2 * vsize then FeeBand.b1_2
  else if fee < 5 * vsize then FeeBand.b2_5
  else if fee < 10 * vsize then FeeBand.b5_10
  else if fee < 25 * vsize then FeeBand.b10_25
  else if fee < 50 * vsize then FeeBand.b25_50
  else if fee < 100 * vsize then FeeBand.b50_100
  else if fee < 250 * vsize then FeeBand.b100_250
  else if fee < 500 * vsize then FeeBand.b250_500
  else if fee < 1000 * vsize then FeeBand.b500_1000
  else FeeBand.b1000plus

/-- Increment the counter of one band. -/
def bumpBand (s : FeerateStats) : FeeBand → FeerateStats
  | FeeBand.below1 => { s with below_1_sat_vbyte := s.below_1_sat_vbyte + 1 }
  | FeeBand.b1_2 => { s with feerate_1_2_sat_vbyte := s.feerate_1_2_sat_vbyte + 1 }
  | FeeBand.b2_5 => { s with feerate_2_5_sat_vbyte := s.feerate_2_5_sat_vbyte + 1 }
  | FeeBand.b5_10 => { s with feerate_5_10_sat_vbyte := s.feerate_5_10_sat_vbyte + 1 }
  | FeeBand.b10_25 => { s with feerate_10_25_sat_vbyte := s.feerate_10_25_sat_vbyte + 1 }
  | FeeBand.b25_50 => { s with feerate_25_50_sat_vbyte := s.feerate_25_50_sat_vbyte + 1 }
  | FeeBand.b50_100 => { s with feerate_50_100_sat_vbyte := s.feerate_50_100_sat_vbyte + 1 }
  | FeeBand.b100_250 => { s with feerate_100_250_sat_vbyte := s.feerate_100_250_sat_vbyte + 1 }
  | FeeBand.b250_500 => { s with feerate_250_500_sat_vbyte := s.feerate_250_500_sat_vbyte + 1 }
  | FeeBand.b500_1000 => { s with feerate_500_1000_sat_vbyte := s.feerate_500_1000_sat_vbyte + 1 }
  | FeeBand.b1000plus => { s with feerate_1000_plus_sat_vbyte := s.feerate_1000_plus_sat_vbyte + 1 }

/-- The loop body of `FeerateStats::from_block` (stats.rs lines 1069–1102)
for one non-coinbase transaction: `fee = tx.fee.unwrap_or_default()`, band
the feerate, then count `zero_fee_tx` for a present-and-zero fee. -/
def feerateTxStep (s : FeerateStats) (tx : BlockTx) : FeerateStats :=
  let fee := tx.fee.getD 0
  let s1 := bumpBand s (feeBandOf fee tx.vsize)
  match tx.fee with
  | some f => if f = 0 then { s1 with zero_fee_tx := s1.zero_fee_tx + 1 } else s1
  | none => s1

/-- `FeerateStats::from_block`, restricted to the claimed counters. The
`is_coinbase` flag of the source skips exactly the first transaction, i.e.
the loop runs over `txdata.tail`. (The source also computes
`txdata.len() - 1` in `usize` for capacities and averages — a quantity that
underflows on an empty `txdata`, which `Stats::from_block` excludes earlier
by panicking on the missing coinbase.) -/
def FeerateStats.from_block (b : Block) : FeerateStats :=
  b.txdata.tail.foldl feerateTxStep FeerateStats.init

/-- Sum of the ten feerate band counters. -/
def bandSum (s : FeerateStats) : Nat :=
  s.feerate_1_2_sat_vbyte + s.feerate_2_5_sat_vbyte + s.feerate_5_10_sat_vbyte +
    s.feerate_10_25_sat_vbyte + s.feerate_25_50_sat_vbyte + s.feerate_50_100_sat_vbyte +
    s.feerate_100_250_sat_vbyte + s.feerate_250_500_sat_vbyte +
    s.feerate_500_1000_sat_vbyte + s.feerate_1000_plus_sat_vbyte

/-! ## ScriptStats (`ScriptStats::from_block`)

Every `ScriptStats` counter is an unclaimed increment; the only
outcome-relevant branch of `ScriptStats::from_block` (stats.rs lines
518–618) is the `_` arm of the ECDSA signature-length match (stats.rs
line 560), which panics for a length below 8. -/

/-- Whether one signature record hits the panicking `_` arm of the length
match: an ECDSA signature shorter than 8 bytes (lengths ≥ 8 land in the
counting arms; Schnorr signatures never reach the match). -/
def sigLengthPanics (si : SignatureInfo) : Bool :=
  match si.signature with
  | SignatureType.ecdsa => decide (si.length < 8)
  | SignatureType.schnorr => false

/-- Whether the block carries any ECDSA signature record shorter than 8
bytes anywhere in its input records. -/
def hasShortEcdsaSig (b : Block) : Bool :=
  b.txdata.any fun tx => tx.inputInfos.any fun ii =>
    ii.signature_info.any sigLengthPanics

/-- `ScriptStats::from_block` as a run, restricted to its outcome: the
signature loop panics at the first ECDSA signature shorter than 8 bytes
(`panic!("ECDSA signature with {} bytes..?", ...)`, message abridged) and
otherwise only increments unclaimed counters. -/
def ScriptStats.from_block_run (b : Block) : RunResult Unit :=
  if hasShortEcdsaSig b then
    RunResult.panics "ECDSA signature with fewer than 8 bytes"
  else RunResult.ok ()

/-! ## BlockStats (`BlockStats::from_block`) and Stats (`Stats::from_block`) -/

/-- The claimed `BlockStats` fields. The floating-point derivations
(`difficulty`, `log2_work`), the payments sums and the pool identification
(an external catalog lookup) are unclaimed and omitted. -/
structure BlockStats : Type where
  height : Int
  transactions : Nat
  inputs : Nat
  outputs : Nat
  empty : Bool
  coinbase_locktime_set : Bool
  coinbase_locktime_set_bip54 : Bool
deriving DecidableEq, Repr

/-- `Sequence::enables_absolute_lock_time()`: the sequence is not the final
value `0xFFFFFFFF` (the source cites BIP-54: "its nSequence field must not
be equal to 0xffffffff"). -/
def enablesAbsoluteLockTime (seq : Nat) : Bool := decide (seq ≠ 0xFFFFFFFF)

/-- `BlockStats::from_block` (stats.rs lines 200–286), restricted to the
claimed fields. `txdata.first().expect("block should have a coinbase tx")`
panics on an empty block; the coinbase consensus-decode and the two parses
of the compact-target hex are the `?`-propagated error paths.
`coinbase_locktime_set` is `lock_time != LockTime::ZERO`, which holds
exactly when the consensus `u32` is non-zero (the time-valued variants all
have consensus values ≥ 500000000). -/
def BlockStats.from_block (b : Block) : RunResult BlockStats :=
  match b.txdata.head? with
  | none => RunResult.panics "block should have a coinbase tx"
  | some tx0 =>
    match tx0.raw with
    | none => RunResult.err StatsError.bitcoinEncode
    | some coinbase_tx =>
      if b.bits_ok = false then RunResult.err StatsError.unprefixedHex
      else if b.bits_radix_ok = false then RunResult.err StatsError.parseInt
      else RunResult.ok
        { height := b.height
          transactions := b.txdata.length
          inputs := (b.txdata.map (fun tx => tx.input.length)).sum
          outputs := (b.txdata.map (fun tx => tx.output.length)).sum
          empty := decide (b.txdata.length = 1)
          coinbase_locktime_set := decide (coinbase_tx.lockTime ≠ 0)
          coinbase_locktime_set_bip54 :=
            decide ((coinbase_tx.lockTime : Int) = b.height - 1) &&
              coinbase_tx.inputSequences.any enablesAbsoluteLockTime }

/-- Lower bound of chrono's representable timestamp range. Modelled from the
spec: `chrono::DateTime::from_timestamp` (an external library) returns
`None` outside its representable range of seconds. -/
def CHRONO_TIMESTAMP_MIN : Int := -8334601228800

/-- Upper bound of chrono's representable timestamp range (see
`CHRONO_TIMESTAMP_MIN`). -/
def CHRONO_TIMESTAMP_MAX : Int := 8210266876799

/-- Rust `u64 as i64`: wrap values ≥ 2^63 around to negatives. -/
def u64_as_i64 (t : Nat) : Int :=
  if t < 2 ^ 63 then (t : Int) else (t : Int) - 2 ^ 64

/-- Whether `DateTime::from_timestamp(block.time as i64, 0)` succeeds. -/
def timestampRepresentable (t : Nat) : Bool :=
  decide (CHRONO_TIMESTAMP_MIN ≤ u64_as_i64 t ∧ u64_as_i64 t ≤ CHRONO_TIMESTAMP_MAX)

/-- The per-transaction decode loop of `Stats::from_block` (stats.rs lines
102–117): consensus-deserialize each transaction's raw bytes, then build its
rawtx-rs `TxInfo`; the first failure aborts the block with the matching
`StatsError`. Returns the first error, if any. -/
def decodeTxs : List BlockTx → Option StatsError
  | [] => none
  | tx :: rest =>
    match tx.raw with
    | none => some StatsError.bitcoinEncode
    | some ctx => if ctx.txInfoOk then decodeTxs rest else some StatsError.txInfo

/-- The stats bundle, restricted to the modelled aggregates: the
`OutputStats` counters and the `ScriptStats` counters are unclaimed and
not stored, but the `ScriptStats` panic outcome is threaded through
`Stats.from_block`. -/
structure Stats : Type where
  block : BlockStats
  tx : TxStats
  input : InputStats
  feerate : FeerateStats
deriving DecidableEq, Repr

/-- `Stats::from_block` (stats.rs lines 98–132): the timestamp `expect`
first, then the per-transaction decode loop, then the aggregates in the
struct literal's evaluation order: `BlockStats::from_block` (the
missing-coinbase `expect` and the `?`-propagated decode errors), then
`TxStats::from_block` (the `tx.fee.unwrap()` panic), then
`InputStats::from_block` and `OutputStats::from_block` (total — the model
identifies the consensus output list with the rest-level one per the
adapter/decode contract, which rules out the OP_RETURN index lookup going
out of bounds), then `ScriptStats::from_block` (the ECDSA
signature-length panic), then `FeerateStats::from_block` (total on the
non-empty blocks that survive `BlockStats::from_block`). -/
def Stats.from_block (b : Block) : RunResult Stats :=
  if timestampRepresentable b.time = false then
    RunResult.panics "invalid block header timestamp"
  else
    match decodeTxs b.txdata with
    | some e => RunResult.err e
    | none =>
      match BlockStats.from_block b with
      | RunResult.panics m => RunResult.panics m
      | RunResult.err e => RunResult.err e
      | RunResult.ok bs =>
        match TxStats.from_block_run b with
        | RunResult.panics m => RunResult.panics m
        | RunResult.err e => RunResult.err e
        | RunResult.ok ts =>
          match ScriptStats.from_block_run b with
          | RunResult.panics m => RunResult.panics m
          | RunResult.err e => RunResult.err e
          | RunResult.ok _ =>
              RunResult.ok
                { block := bs
                  tx := ts
                  input := InputStats.from_block b
                  feerate := FeerateStats.from_block b }

/-! ## The orchestrator's fetch-height computation (`lib.rs`) -/

/-- `REORG_SAFETY_MARGIN` (lib.rs line 22), a `u64`. -/
def REORG_SAFETY_MARGIN : Nat := 6

/-- Release-build semantics of `u64` subtraction: wrap on underflow (a
debug build panics instead). Both arguments are assumed < 2^64. -/
def u64_sub (a b : Nat) : Nat := (a + 2 ^ 64 - b) % 2 ^ 64

/-- `lib.rs` line 168: `std::cmp::max(0, rest_height - REORG_SAFETY_MARGIN)`
with both operands `u64` — the subtraction wraps (or panics) below 6, and
`max(0, ·)` is the identity on an unsigned value. -/
def fetch_height (tip : Nat) : Nat := max 0 (u64_sub tip REORG_SAFETY_MARGIN)

/-- Follows the spec's words: `fetch_height = max(0, tip − 6)` over the
integers. -/
def fetch_height_spec (tip : Nat) : Int := max 0 ((tip : Int) - (REORG_SAFETY_MARGIN : Int))

/-! ## Reference (specification-side) definitions

These follow the spec's / claims' words and are compared against the
embedded code. -/

/-- Whether some non-coinbase input of the list hits the staged-outpoint
set, under unconditional single-take semantics: each examined outpoint is
removed from the set as the scan passes it, with no early exit. -/
def takeScan (eph : List (Nat × Nat)) : List InputData → Bool
  | [] => false
  | InputData.coinbase :: rest => takeScan eph rest
  | InputData.nonCoinbase t v _ :: rest =>
      decide ((t, v) ∈ eph) || takeScan (eph.erase (t, v)) rest

/-- The predicate "this non-coinbase input spends a txid in `txids`". -/
def newlyPred (txids : List Nat) : InputData → Bool
  | InputData.nonCoinbase t _ _ => decide (t ∈ txids)
  | InputData.coinbase => false

/-- Follows the claim's words: the predicate "at least one of the
transaction's non-coinbase inputs spends a txid in `earlier`". -/
def newlyFlagSpec (earlier : List Nat) (tx : BlockTx) : Bool :=
  tx.input.any (newlyPred earlier)

/-- Follows the claim's words: count, over the block in order, the
transactions with a non-coinbase input spending a txid at an earlier
position; the set of earlier txids grows by the current txid after each
transaction. -/
def newlyScanSpec (earlier : List Nat) : List BlockTx → Nat
  | [] => 0
  | tx :: rest =>
      (if newlyFlagSpec earlier tx then 1 else 0) +
        newlyScanSpec (insertOnce tx.txid earlier) rest

/-- Whether the transaction spends the given staged outpoint. -/
def spendsOutpoint (tx : BlockTx) (p : Nat × Nat) : Bool :=
  tx.input.any fun i =>
    match i with
    | InputData.nonCoinbase t v _ => decide ((t, v) = p)
    | InputData.coinbase => false

/-- Follows the claim C2's words: a transaction counts iff it spends a
staged ephemeral-dust outpoint AND has version 3, non-zero fee and
vsize ≤ 1000; staged outpoints are consumed (single-take) only by the
first same-block child matching those criteria, so a non-matching
same-block spender leaves them staged. Staging follows the (correct)
producer rule of `stagingStep`. -/
def claimEphScan (eph : List (Nat × Nat)) : List BlockTx → Nat
  | [] => 0
  | tx :: rest =>
      let flag := ephSpendCriteria tx && (eph.any fun p => spendsOutpoint tx p)
      let eph' := if flag then eph.filter (fun p => !(spendsOutpoint tx p)) else eph
      (if flag then 1 else 0) + claimEphScan (stagingStep eph' tx) rest

/-- The spec-side ephemeral-dust spender count for a whole block. -/
def claimEphCount (b : Block) : Nat := claimEphScan [] b.txdata

/-- Count the block's rest-level inputs (across all transactions, in
order) satisfying a predicate. -/
def countInputs (b : Block) (p : InputData → Bool) : Nat :=
  (b.txdata.flatMap (fun tx => tx.input)).countP p

/-- Count the block's rawtx-rs input records satisfying a predicate. -/
def countInputInfos (b : Block) (p : InputInfo → Bool) : Nat :=
  (b.txdata.flatMap (fun tx => tx.inputInfos)).countP p

/-- A non-coinbase input whose prevout script type is the anchor type. -/
def isAnchorSpend : InputData → Bool
  | InputData.nonCoinbase _ _ po => decide (po.spk_type = ScriptPubkeyType.anchor)
  | InputData.coinbase => false

/-- A non-coinbase anchor spend whose prevout value is strictly below the
240-sat dust threshold. -/
def isAnchorDustSpend : InputData → Bool
  | InputData.nonCoinbase _ _ po =>
      decide (po.spk_type = ScriptPubkeyType.anchor) && decide (po.value < P2A_DUST_THRESHOLD)
  | InputData.coinbase => false

/-- A non-coinbase input whose spent txid is in the given txid set (the
second pass's same-block check). -/
def sameBlockSpend (txids : List Nat) : InputData → Bool
  | InputData.nonCoinbase t _ _ => decide (t ∈ txids)
  | InputData.coinbase => false

/-- A rawtx-rs input record classified `Unknown` or `P2a` by the first-pass
type match (the two arms feeding `inputs_unknown`). -/
def isUnknownBucket (ii : InputInfo) : Bool :=
  match ii.in_type with
  | InputType.unknown | InputType.p2a => true
  | _ => false

/-- The claim's age of a non-coinbase input: 0 when the spent txid is in
the block's own txid set, `height − prevout.height` otherwise. -/
def inputAge (height : Int) (txids : List Nat) (t : Nat) (po : Prevout) : Int :=
  if t ∈ txids then 0 else height - po.height

/-- A non-coinbase input whose age is at most `k`. -/
def ageAtMost (height : Int) (txids : List Nat) (k : Int) : InputData → Bool
  | InputData.nonCoinbase t _ po => decide (inputAge height txids t po ≤ k)
  | InputData.coinbase => false

/-- A non-coinbase input whose age is exactly 0. -/
def ageIsZero (height : Int) (txids : List Nat) : InputData → Bool
  | InputData.nonCoinbase t _ po => decide (inputAge height txids t po = 0)
  | InputData.coinbase => false

/-- The adapter's height discipline: a non-coinbase input whose spent txid
is not in the block's own txid set has a prevout confirmed strictly below
this block (the adapter reserves `prevout.height = 0` + txid membership for
same-block prevouts). -/
def heightsWF (b : Block) : Bool :=
  b.txdata.all fun tx => tx.input.all fun i =>
    match i with
    | InputData.nonCoinbase t _ po =>
        decide (t ∈ blockTxids b) || decide (po.height < b.height)
    | InputData.coinbase => true

/-! ## Concrete blocks for counterexamples and witnesses -/

/-- A generic non-anchor prevout. -/
def po0 : Prevout := ⟨5000000000, ScriptPubkeyType.other, 0⟩

/-- Coinbase transaction of the example blocks: txid 0, version 1, no fee. -/
def cbTx : BlockTx :=
  { txid := 0, version := 1, fee := none, vsize := 100
    raw := some ⟨0, [0xFFFFFFFF], true⟩
    input := [InputData.coinbase]
    output := [⟨5000000000, 300, 0⟩]
    inputInfos := [⟨InputType.coinbase, []⟩] }

/-- Ephemeral-dust producer: version 3, zero fee, a single sub-dust output
(value 100 < dust threshold 500) at index 0. Stages outpoint (1, 0). -/
def dustProducerTx : BlockTx :=
  { txid := 1, version := 3, fee := some 0, vsize := 100
    raw := some ⟨0, [0], true⟩
    input := [InputData.nonCoinbase 0 0 po0]
    output := [⟨100, 500, 0⟩]
    inputInfos := [⟨InputType.p2wpkh, []⟩] }

/-- A same-block spender of the staged outpoint (1, 0) that fails the
spending criteria (version 2, not 3). -/
def failingSpenderTx : BlockTx :=
  { txid := 2, version := 2, fee := some 1000, vsize := 100
    raw := some ⟨0, [0], true⟩
    input := [InputData.nonCoinbase 1 0 ⟨100, ScriptPubkeyType.other, 0⟩]
    output := [⟨400, 300, 0⟩]
    inputInfos := [⟨InputType.p2wpkh, []⟩] }

/-- A same-block spender of the staged outpoint (1, 0) that matches all the
spending criteria (version 3, fee 1000 ≠ 0, vsize 100 ≤ 1000). -/
def matchingSpenderTx : BlockTx :=
  { txid := 3, version := 3, fee := some 1000, vsize := 100
    raw := some ⟨0, [0], true⟩
    input := [InputData.nonCoinbase 1 0 ⟨100, ScriptPubkeyType.other, 0⟩]
    output := [⟨400, 300, 0⟩]
    inputInfos := [⟨InputType.p2wpkh, []⟩] }

/-- Counterexample block for C2: producer stages (1, 0); a non-matching
child spends it first; a matching child follows. -/
def blockTakeCounterexample : Block :=
  { height := 10, time := 1700000000, bits_ok := true, bits_radix_ok := true
    txdata := [cbTx, dustProducerTx, failingSpenderTx, matchingSpenderTx] }

/-- A transaction with a present, zero fee (and positive vsize): its
feerate 0 lands in `below_1_sat_vbyte` and it is also counted in
`zero_fee_tx`. -/
def zeroFeeTx : BlockTx :=
  { txid := 1, version := 3, fee := some 0, vsize := 100
    raw := some ⟨0, [0], true⟩
    input := [InputData.nonCoinbase 0 0 po0]
    output := [⟨600, 500, 0⟩]
    inputInfos := [⟨InputType.p2wpkh, []⟩] }

/-- Counterexample block for C1: coinbase plus one zero-fee transaction. -/
def blockZeroFee : Block :=
  { height := 10, time := 1700000000, bits_ok := true, bits_radix_ok := true
    txdata := [cbTx, zeroFeeTx] }

/-- Coinbase with a BIP-54 lock-time: consensus lock-time 9 = height 10 − 1,
and a sequence (0) that enables the absolute lock-time. -/
def cbTxBip54 : BlockTx :=
  { txid := 0, version := 1, fee := none, vsize := 100
    raw := some ⟨9, [0], true⟩
    input := [InputData.coinbase]
    output := [⟨5000000000, 300, 0⟩]
    inputInfos := [⟨InputType.coinbase, []⟩] }

/-- A plain spender of the coinbase output, confirmed prevouts only. -/
def plainSpenderTx : BlockTx :=
  { txid := 1, version := 2, fee := some 500, vsize := 200
    raw := some ⟨0, [0xFFFFFFFF], true⟩
    input := [InputData.nonCoinbase 0 0 po0]
    output := [⟨400, 300, 0⟩]
    inputInfos := [⟨InputType.p2wpkh, []⟩] }

/-- A well-formed two-transaction block used by the witnesses. -/
def blockOk : Block :=
  { height := 10, time := 1700000000, bits_ok := true, bits_radix_ok := true
    txdata := [cbTxBip54, plainSpenderTx] }

/-- The `BlockStats` value `BlockStats::from_block` emits on `blockOk`. -/
def blockOkStats : BlockStats :=
  { height := 10, transactions := 2, inputs := 2, outputs := 2, empty := false
    coinbase_locktime_set := true, coinbase_locktime_set_bip54 := true }

/-- A block whose header time is not representable as a chrono timestamp:
`2^63 as i64` is `i64::MIN`, far below chrono's minimum. -/
def blockBadTime : Block :=
  { height := 0, time := 2 ^ 63, bits_ok := true, bits_radix_ok := true
    txdata := [] }

/-- A coinbase-only block whose input records carry an ECDSA signature of
length 5: it has a transaction and a representable header time, yet the
signature-length match of `ScriptStats::from_block` panics on it. -/
def blockBadSig : Block :=
  { height := 10, time := 1700000000, bits_ok := true, bits_radix_ok := true
    txdata := [{ txid := 0, version := 1, fee := none, vsize := 100
                 raw := some ⟨0, [0xFFFFFFFF], true⟩
                 input := [InputData.coinbase]
                 output := [⟨5000000000, 300, 0⟩]
                 inputInfos := [⟨InputType.coinbase, [⟨SignatureType.ecdsa, 5⟩]⟩] }] }

/-- A version-3 transaction with no fee field that spends the staged
outpoint (1, 0): the scan's `take` succeeds and the version is 3, so
`tx.fee.unwrap()` is evaluated on `None` and panics. -/
def feeNoneSpenderTx : BlockTx :=
  { txid := 2, version := 3, fee := none, vsize := 100
    raw := some ⟨0, [0], true⟩
    input := [InputData.nonCoinbase 1 0 ⟨100, ScriptPubkeyType.other, 0⟩]
    output := [⟨400, 300, 0⟩]
    inputInfos := [⟨InputType.p2wpkh, []⟩] }

/-- A block with a transaction and a representable header time on which
the `tx.fee.unwrap()` of the ephemeral-dust scan panics: the producer
stages (1, 0) and the fee-less version-3 `feeNoneSpenderTx` takes it. -/
def blockBadFee : Block :=
  { height := 10, time := 1700000000, bits_ok := true, bits_radix_ok := true
    txdata := [cbTx, dustProducerTx, feeNoneSpenderTx] }

/-! ## Helper lemmas: the TxStats input scan -/

theorem takeScan_nil : ∀ l : List InputData, takeScan [] l = false
  | [] => rfl
  | InputData.coinbase :: rest => takeScan_nil rest
  | InputData.nonCoinbase t v _ :: rest => by
      simp [takeScan, takeScan_nil rest]

/-- The early break of the input scan does not change the final
ephemeral-dust flag: it equals the static criteria conjoined with the
unconditional-take scan of the staged set over the full input list. -/
theorem processInputs_ephF (tx : BlockTx) (txids : List Nat) :
    ∀ (l : List InputData) (newly ephF : Bool) (eph : List (Nat × Nat)),
      (processInputs tx txids newly ephF eph l).2.1 =
        (ephF || (ephSpendCriteria tx && takeScan eph l))
  | [], newly, ephF, eph => by simp [processInputs, takeScan]
  | InputData.coinbase :: rest, newly, ephF, eph => by
      simpa [processInputs, takeScan] using
        processInputs_ephF tx txids rest newly ephF eph
  | InputData.nonCoinbase t v po :: rest, newly, ephF, eph => by
      have IH := processInputs_ephF tx txids rest
      simp only [processInputs, takeScan]
      by_cases hE : (eph.erase (t, v)).isEmpty = true
      · have hnil : eph.erase (t, v) = [] := by simpa using hE
        rw [hnil, takeScan_nil rest]
        cases hmem : decide (t ∈ txids) <;> cases htk : decide ((t, v) ∈ eph) <;>
          cases hcrit : ephSpendCriteria tx <;> cases ephF <;> cases newly <;>
            simp_all [IH, takeScan_nil]
      · cases hmem : decide (t ∈ txids) <;> cases htk : decide ((t, v) ∈ eph) <;>
          cases hcrit : ephSpendCriteria tx <;> cases ephF <;> cases newly <;>
            simp_all [IH]

/-- The early break of the input scan does not change the final
newly-created-utxos flag either: it is the disjunction of the earlier-txid
test over the full input list. -/
theorem processInputs_newly (tx : BlockTx) (txids : List Nat) :
    ∀ (l : List InputData) (newly ephF : Bool) (eph : List (Nat × Nat)),
      (processInputs tx txids newly ephF eph l).1 =
        (newly || l.any (newlyPred txids))
  | [], newly, ephF, eph => by simp [processInputs]
  | InputData.coinbase :: rest, newly, ephF, eph => by
      simpa [processInputs, newlyPred] using
        processInputs_newly tx txids rest newly ephF eph
  | InputData.nonCoinbase t v po :: rest, newly, ephF, eph => by
      have IH := processInputs_newly tx txids rest
      simp only [processInputs, List.any_cons, newlyPred]
      by_cases hE : (eph.erase (t, v)).isEmpty = true
      · cases hmem : decide (t ∈ txids) <;> cases htk : decide ((t, v) ∈ eph) <;>
          cases hcrit : ephSpendCriteria tx <;> cases ephF <;> cases newly <;>
            simp_all [IH]
      · cases hmem : decide (t ∈ txids) <;> cases htk : decide ((t, v) ∈ eph) <;>
          cases hcrit : ephSpendCriteria tx <;> cases ephF <;> cases newly <;>
            simp_all [IH]

/-- The transaction loop and the specification-side scan count the
newly-created-utxos spenders identically. -/
theorem txScan_newly :
    ∀ (l : List BlockTx) (txids : List Nat) (eph : List (Nat × Nat)) (s : TxStats),
      (txScan txids eph s l).tx_spending_newly_created_utxos =
        s.tx_spending_newly_created_utxos + newlyScanSpec txids l
  | [], txids, eph, s => by simp [txScan, newlyScanSpec]
  | tx :: rest, txids, eph, s => by
      have IH := txScan_newly rest (insertOnce tx.txid txids)
        (stagingStep (processInputs tx txids false false eph tx.input).2.2 tx)
      simp only [txScan, newlyScanSpec]
      rw [IH]
      have hflag := processInputs_newly tx txids tx.input false false eph
      simp only [Bool.false_or] at hflag
      rw [hflag]
      show s.tx_spending_newly_created_utxos + _ + _ = _
      rw [newlyFlagSpec]
      cases h : tx.input.any (newlyPred txids) <;> simp [h, Nat.add_assoc]

/-! ## Claim theorems: TxStats -/

/-- C2 (counterexample): the claim's single-take rule is false on the code.
In `blockTakeCounterexample` the producer stages outpoint (1, 0); the
version-2 child `failingSpenderTx` spends it first and fails the criteria,
yet `HashSet::take` (evaluated before the `&&` criteria) removes the
outpoint, so the later fully-matching child `matchingSpenderTx` finds
nothing staged and the engine counts 0 — while under the claim's
staging semantics (outpoints consumed only by matching children) it
would count 1. -/
theorem ephemeral_dust_single_take_counterexample :
    (TxStats.from_block blockTakeCounterexample).tx_spending_ephemeral_dust = 0 ∧
      claimEphCount blockTakeCounterexample = 1 ∧
      (TxStats.from_block blockTakeCounterexample).tx_spending_ephemeral_dust ≠
        claimEphCount blockTakeCounterexample := by
  refine ⟨by decide, by decide, by decide⟩

/-- C2 (amended): a transaction's ephemeral-dust flag is set iff it has
version 3, non-zero fee and vsize ≤ 1000, and (scanning its non-coinbase
inputs in order against the staged set, with each referenced outpoint
removed as it is passed, regardless of the criteria) some input hits a
staged outpoint. The early break of the scan does not affect the flag. -/
theorem ephemeral_dust_spending_characterization
    (tx : BlockTx) (txids : List Nat) (eph : List (Nat × Nat)) :
    (processInputs tx txids false false eph tx.input).2.1 =
      (ephSpendCriteria tx && takeScan eph tx.input) := by
  simpa using processInputs_ephF tx txids tx.input false false eph

/-- C4: the staging step adds an outpoint exactly when the producer is
non-coinbase with a present zero fee, has version 3, vsize ≤ 10000, and
exactly one output strictly below its script's dust threshold — and then
it adds exactly that output's outpoint. A producer with more than one
sub-dust output stages nothing. -/
theorem ephemeral_dust_staging_rule
    (eph : List (Nat × Nat)) (tx : BlockTx) (p : Nat × Nat) :
    p ∈ stagingStep eph tx ↔
      p ∈ eph ∨ (tx.fee = some 0 ∧ tx.version = 3 ∧ tx.vsize ≤ 10000 ∧
        (dustOutpoints tx).length = 1 ∧ p ∈ dustOutpoints tx) := by
  unfold stagingStep
  by_cases hc : ephStageCriteria tx = true
  · obtain ⟨⟨hv, hf⟩, hs⟩ : (tx.version = 3 ∧ tx.fee = some 0) ∧ tx.vsize ≤ 10000 := by
      simpa [ephStageCriteria] using hc
    rw [if_pos hc]
    by_cases hl : (dustOutpoints tx).length = 1
    · obtain ⟨q, hq⟩ := List.length_eq_one.mp hl
      simp only [if_pos hl, hq, List.foldl_cons, List.foldl_nil]
      simp [mem_insertOnce, hv, hf, hs]
      tauto
    · simp [if_neg hl, hl]
  · rw [if_neg hc]
    have hnc : ¬((tx.version = 3 ∧ tx.fee = some 0) ∧ tx.vsize ≤ 10000) := by
      intro h
      exact hc (by simp [ephStageCriteria, h.1.1, h.1.2, h.2])
    constructor
    · exact Or.inl
    · rintro (h | ⟨hf, hv, hs, _⟩)
      · exact h
      · exact absurd ⟨⟨hv, hf⟩, hs⟩ hnc

/-- C5: a transaction is counted in `tx_spending_newly_created_utxos` iff
at least one of its non-coinbase inputs spends a txid at an earlier
position of the block's transaction list (`newlyScanSpec` counts exactly
those transactions, threading the earlier-txid set through the scan). -/
theorem tx_spending_newly_created_utxos_correct (b : Block) :
    (TxStats.from_block b).tx_spending_newly_created_utxos =
      newlyScanSpec [] b.txdata := by
  simpa [TxStats.from_block] using txScan_newly b.txdata [] [] ⟨0, 0⟩

/-! ## Helper lemmas: counter folds -/

/-- A fold whose step adds a per-element weight to an observable adds the
sum of the weights. -/
theorem foldl_weight {σ τ M : Type} [AddCommMonoid M] (f : σ → τ → σ)
    (g : σ → M) (w : τ → M) (hstep : ∀ s t, g (f s t) = g s + w t) :
    ∀ (l : List τ) (s : σ), g (l.foldl f s) = g s + (l.map w).sum
  | [], s => by simp
  | t :: rest, s => by
      rw [List.foldl_cons, foldl_weight f g w hstep rest (f s t), hstep,
        List.map_cons, List.sum_cons, add_assoc]

theorem sum_map_one {τ : Type} (l : List τ) :
    (l.map fun _ => (1 : Nat)).sum = l.length := by
  induction l with
  | nil => rfl
  | cons t rest ih => simp [ih]; omega

/-- Each non-coinbase transaction adds exactly one to the total of
`below_1_sat_vbyte` and the ten band counters. -/
theorem feerateTxStep_bands (s : FeerateStats) (tx : BlockTx) :
    (feerateTxStep s tx).below_1_sat_vbyte + bandSum (feerateTxStep s tx) =
      (s.below_1_sat_vbyte + bandSum s) + 1 := by
  simp only [feerateTxStep]
  generalize feeBandOf (tx.fee.getD 0) tx.vsize = band
  cases hfee : tx.fee with
  | none => cases band <;> simp [bumpBand, bandSum] <;> omega
  | some f =>
      by_cases hf : f = 0 <;> cases band <;> simp [bumpBand, bandSum, hf] <;> omega

/-! ## Claim theorems: FeerateStats -/

/-- C1 (counterexample): the spec's partition equation
`zero_fee_tx + below_1_sat_vbyte + Σ bands = transactions − 1` fails on
the code: a zero-fee transaction has feerate 0 and is counted in
`below_1_sat_vbyte` by the band match AND again in `zero_fee_tx`, so on
`blockZeroFee` (coinbase + one zero-fee transaction) the left side is 2
while `transactions − 1 = 1`. -/
theorem feerate_band_partition_spec_counterexample :
    (FeerateStats.from_block blockZeroFee).zero_fee_tx +
        (FeerateStats.from_block blockZeroFee).below_1_sat_vbyte +
        bandSum (FeerateStats.from_block blockZeroFee) = 2 ∧
      blockZeroFee.txdata.length - 1 = 1 ∧
      (FeerateStats.from_block blockZeroFee).zero_fee_tx +
          (FeerateStats.from_block blockZeroFee).below_1_sat_vbyte +
          bandSum (FeerateStats.from_block blockZeroFee) ≠
        blockZeroFee.txdata.length - 1 := by
  refine ⟨by decide, by decide, by decide⟩

/-- C1 (amended): for every non-empty block, `below_1_sat_vbyte` plus the
ten feerate band counters equals `transactions − 1`: every non-coinbase
transaction lands in exactly one of {sub-1, one band}. (`zero_fee_tx`
additionally counts the zero-fee transactions, which already sit in
`below_1_sat_vbyte`, so it must not be added to the partition.) -/
theorem feerate_band_partition (b : Block) (_hne : b.txdata ≠ []) :
    (FeerateStats.from_block b).below_1_sat_vbyte +
        bandSum (FeerateStats.from_block b) = b.txdata.length - 1 := by
  have := foldl_weight feerateTxStep
    (fun s => s.below_1_sat_vbyte + bandSum s) (fun _ => (1 : Nat))
    feerateTxStep_bands b.txdata.tail FeerateStats.init
  rw [FeerateStats.from_block, this, sum_map_one, List.length_tail]
  simp [FeerateStats.init, bandSum]

/-- Witness for `feerate_band_partition` at the concrete block `blockOk`. -/
theorem feerate_band_partition_witness :
    blockOk.txdata ≠ [] ∧
      (FeerateStats.from_block blockOk).below_1_sat_vbyte +
          bandSum (FeerateStats.from_block blockOk) =
        blockOk.txdata.length - 1 :=
  ⟨by decide, feerate_band_partition blockOk (by decide)⟩

/-! ## Helper lemmas: the InputStats folds -/

theorem prevoutStep_eq (h : Int) (txids : List Nat) (s : InputStats) (i : InputData) :
    prevoutStep h txids s i =
      { inputs_p2a := s.inputs_p2a + (if isAnchorSpend i then 1 else 0)
        inputs_p2a_dust := s.inputs_p2a_dust + (if isAnchorDustSpend i then 1 else 0)
        inputs_unknown := s.inputs_unknown - (if isAnchorSpend i then 1 else 0)
        inputs_spend_in_same_block :=
          s.inputs_spend_in_same_block + (if sameBlockSpend txids i then 1 else 0)
        inputs_spending_prev_1_blocks :=
          s.inputs_spending_prev_1_blocks + (if ageAtMost h txids 1 i then 1 else 0)
        inputs_spending_prev_6_blocks :=
          s.inputs_spending_prev_6_blocks + (if ageAtMost h txids 6 i then 1 else 0)
        inputs_spending_prev_144_blocks :=
          s.inputs_spending_prev_144_blocks + (if ageAtMost h txids 144 i then 1 else 0)
        inputs_spending_prev_2016_blocks :=
          s.inputs_spending_prev_2016_blocks + (if ageAtMost h txids 2016 i then 1 else 0) } := by
  cases i with
  | coinbase =>
      simp [prevoutStep, isAnchorSpend, isAnchorDustSpend, sameBlockSpend, ageAtMost]
  | nonCoinbase t v po =>
      simp only [prevoutStep, isAnchorSpend, isAnchorDustSpend, sameBlockSpend,
        ageAtMost, inputAge]
      by_cases c1 : t ∈ txids <;>
        by_cases c2 : po.spk_type = ScriptPubkeyType.anchor <;>
          by_cases c3 : po.value < P2A_DUST_THRESHOLD <;>
            simp [c1, c2, c3] <;> split_ifs <;> simp_all

theorem inputInfoStep_eq (s : InputStats) (ii : InputInfo) :
    inputInfoStep s ii =
      { s with inputs_unknown :=
          s.inputs_unknown + (if isUnknownBucket ii then 1 else 0) } := by
  obtain ⟨it, si⟩ := ii
  cases it <;> simp [inputInfoStep, isUnknownBucket]

theorem infoFold (l : List InputInfo) (s : InputStats) :
    l.foldl inputInfoStep s =
      { s with inputs_unknown :=
          s.inputs_unknown + (l.countP isUnknownBucket : Int) } := by
  induction l generalizing s with
  | nil => simp
  | cons ii rest ih =>
      rw [List.foldl_cons, inputInfoStep_eq, ih]
      simp only [List.countP_cons, InputStats.mk.injEq, and_true, true_and]
      push_cast
      ring

theorem prevoutFold (h : Int) (txids : List Nat) (l : List InputData) (s : InputStats) :
    l.foldl (prevoutStep h txids) s =
      { inputs_p2a := s.inputs_p2a + l.countP isAnchorSpend
        inputs_p2a_dust := s.inputs_p2a_dust + l.countP isAnchorDustSpend
        inputs_unknown := s.inputs_unknown - (l.countP isAnchorSpend : Int)
        inputs_spend_in_same_block :=
          s.inputs_spend_in_same_block + l.countP (sameBlockSpend txids)
        inputs_spending_prev_1_blocks :=
          s.inputs_spending_prev_1_blocks + l.countP (ageAtMost h txids 1)
        inputs_spending_prev_6_blocks :=
          s.inputs_spending_prev_6_blocks + l.countP (ageAtMost h txids 6)
        inputs_spending_prev_144_blocks :=
          s.inputs_spending_prev_144_blocks + l.countP (ageAtMost h txids 144)
        inputs_spending_prev_2016_blocks :=
          s.inputs_spending_prev_2016_blocks + l.countP (ageAtMost h txids 2016) } := by
  induction l generalizing s with
  | nil => simp
  | cons i rest ih =>
      rw [List.foldl_cons, prevoutStep_eq, ih]
      simp only [List.countP_cons, InputStats.mk.injEq]
      refine ⟨?_, ?_, ?_, ?_, ?_, ?_, ?_, ?_⟩ <;> push_cast <;> ring

theorem inputTxFold (h : Int) (txids : List Nat) (l : List BlockTx) (s : InputStats) :
    l.foldl (inputTxStep h txids) s =
      { inputs_p2a :=
          s.inputs_p2a + (l.flatMap (fun tx => tx.input)).countP isAnchorSpend
        inputs_p2a_dust :=
          s.inputs_p2a_dust + (l.flatMap (fun tx => tx.input)).countP isAnchorDustSpend
        inputs_unknown :=
          s.inputs_unknown + ((l.flatMap (fun tx => tx.inputInfos)).countP isUnknownBucket : Int)
            - (l.flatMap (fun tx => tx.input)).countP isAnchorSpend
        inputs_spend_in_same_block :=
          s.inputs_spend_in_same_block +
            (l.flatMap (fun tx => tx.input)).countP (sameBlockSpend txids)
        inputs_spending_prev_1_blocks :=
          s.inputs_spending_prev_1_blocks +
            (l.flatMap (fun tx => tx.input)).countP (ageAtMost h txids 1)
        inputs_spending_prev_6_blocks :=
          s.inputs_spending_prev_6_blocks +
            (l.flatMap (fun tx => tx.input)).countP (ageAtMost h txids 6)
        inputs_spending_prev_144_blocks :=
          s.inputs_spending_prev_144_blocks +
            (l.flatMap (fun tx => tx.input)).countP (ageAtMost h txids 144)
        inputs_spending_prev_2016_blocks :=
          s.inputs_spending_prev_2016_blocks +
            (l.flatMap (fun tx => tx.input)).countP (ageAtMost h txids 2016) } := by
  induction l generalizing s with
  | nil => simp
  | cons tx rest ih =>
      rw [List.foldl_cons, inputTxStep, infoFold, prevoutFold, ih]
      simp only [List.flatMap_cons, List.countP_append, InputStats.mk.injEq]
      refine ⟨?_, ?_, ?_, ?_, ?_, ?_, ?_, ?_⟩ <;> push_cast <;> ring

/-- Closed form of the claimed `InputStats` counters. -/
theorem InputStats.from_block_eq (b : Block) :
    InputStats.from_block b =
      { inputs_p2a := countInputs b isAnchorSpend
        inputs_p2a_dust := countInputs b isAnchorDustSpend
        inputs_unknown :=
          (countInputInfos b isUnknownBucket : Int) - countInputs b isAnchorSpend
        inputs_spend_in_same_block := countInputs b (sameBlockSpend (blockTxids b))
        inputs_spending_prev_1_blocks :=
          countInputs b (ageAtMost b.height (blockTxids b) 1)
        inputs_spending_prev_6_blocks :=
          countInputs b (ageAtMost b.height (blockTxids b) 6)
        inputs_spending_prev_144_blocks :=
          countInputs b (ageAtMost b.height (blockTxids b) 144)
        inputs_spending_prev_2016_blocks :=
          countInputs b (ageAtMost b.height (blockTxids b) 2016) } := by
  rw [InputStats.from_block, inputTxFold]
  simp [InputStats.init, countInputs, countInputInfos]

/-! ## Claim theorems: InputStats -/

/-- C7: the anchor second pass. The emitted `inputs_p2a` counts exactly the
non-coinbase inputs whose prevout script type is the anchor type;
`inputs_unknown` is the first-pass `Unknown | P2a` count minus that anchor
count (one decrement per anchor spend); `inputs_p2a_dust` counts exactly
the anchor spends whose prevout value is strictly below 240 sat. -/
theorem anchor_second_pass_correct (b : Block) :
    (InputStats.from_block b).inputs_p2a = countInputs b isAnchorSpend ∧
      (InputStats.from_block b).inputs_p2a_dust = countInputs b isAnchorDustSpend ∧
      (InputStats.from_block b).inputs_unknown =
        (countInputInfos b isUnknownBucket : Int) - countInputs b isAnchorSpend := by
  rw [InputStats.from_block_eq]
  exact ⟨rfl, rfl, rfl⟩

/-- C6: with age 0 for same-block prevouts (detected via the block's txid
set) and `height − prevout.height` otherwise, each `prev_k` counter counts
exactly the non-coinbase inputs of age ≤ k; under the adapter's height
discipline `inputs_spend_in_same_block` counts exactly the inputs of age 0;
and the five counters are monotone. -/
theorem input_age_counters_correct (b : Block) (hWF : heightsWF b = true) :
    (InputStats.from_block b).inputs_spending_prev_1_blocks =
        countInputs b (ageAtMost b.height (blockTxids b) 1) ∧
      (InputStats.from_block b).inputs_spending_prev_6_blocks =
        countInputs b (ageAtMost b.height (blockTxids b) 6) ∧
      (InputStats.from_block b).inputs_spending_prev_144_blocks =
        countInputs b (ageAtMost b.height (blockTxids b) 144) ∧
      (InputStats.from_block b).inputs_spending_prev_2016_blocks =
        countInputs b (ageAtMost b.height (blockTxids b) 2016) ∧
      (InputStats.from_block b).inputs_spend_in_same_block =
        countInputs b (ageIsZero b.height (blockTxids b)) ∧
      (InputStats.from_block b).inputs_spend_in_same_block ≤
        (InputStats.from_block b).inputs_spending_prev_1_blocks ∧
      (InputStats.from_block b).inputs_spending_prev_1_blocks ≤
        (InputStats.from_block b).inputs_spending_prev_6_blocks ∧
      (InputStats.from_block b).inputs_spending_prev_6_blocks ≤
        (InputStats.from_block b).inputs_spending_prev_144_blocks ∧
      (InputStats.from_block b).inputs_spending_prev_144_blocks ≤
        (InputStats.from_block b).inputs_spending_prev_2016_blocks := by
  have hsame : countInputs b (sameBlockSpend (blockTxids b)) =
      countInputs b (ageIsZero b.height (blockTxids b)) := by
    refine List.countP_congr ?_
    intro i hi
    cases i with
    | coinbase => simp [sameBlockSpend, ageIsZero]
    | nonCoinbase t v po =>
        by_cases hm : t ∈ blockTxids b
        · simp [sameBlockSpend, ageIsZero, inputAge, hm]
        · obtain ⟨tx, htx, hin⟩ := List.mem_flatMap.mp hi
          have h1 := (List.all_eq_true.mp hWF) tx htx
          have h2 := (List.all_eq_true.mp h1) (InputData.nonCoinbase t v po) hin
          simp only [decide_eq_true_eq, Bool.or_eq_true] at h2
          have hlt : po.height < b.height := h2.resolve_left hm
          have hne : b.height - po.height ≠ 0 := by omega
          simp [sameBlockSpend, ageIsZero, inputAge, hm, hne]
  have hmono : ∀ (j k : Int), j ≤ k →
      countInputs b (ageAtMost b.height (blockTxids b) j) ≤
        countInputs b (ageAtMost b.height (blockTxids b) k) := by
    intro j k hjk
    refine List.countP_mono_left ?_
    intro i _ hp
    cases i with
    | coinbase => simp [ageAtMost] at hp
    | nonCoinbase t v po =>
        simp only [ageAtMost, decide_eq_true_eq] at hp ⊢
        omega
  have hzero_le : countInputs b (ageIsZero b.height (blockTxids b)) ≤
      countInputs b (ageAtMost b.height (blockTxids b) 1) := by
    refine List.countP_mono_left ?_
    intro i _ hp
    cases i with
    | coinbase => simp [ageIsZero] at hp
    | nonCoinbase t v po =>
        simp only [ageIsZero, ageAtMost, decide_eq_true_eq] at hp ⊢
        omega
  have hsb_le : countInputs b (sameBlockSpend (blockTxids b)) ≤
      countInputs b (ageAtMost b.height (blockTxids b) 1) := by
    rw [hsame]; exact hzero_le
  rw [InputStats.from_block_eq]
  exact ⟨rfl, rfl, rfl, rfl, hsame, hsb_le, hmono 1 6 (by norm_num),
    hmono 6 144 (by norm_num), hmono 144 2016 (by norm_num)⟩

/-- Witness for `input_age_counters_correct` at the concrete block
`blockOk`. -/
theorem input_age_counters_witness :
    heightsWF blockOk = true ∧
      (InputStats.from_block blockOk).inputs_spending_prev_1_blocks =
        countInputs blockOk (ageAtMost blockOk.height (blockTxids blockOk) 1) ∧
      (InputStats.from_block blockOk).inputs_spending_prev_6_blocks =
        countInputs blockOk (ageAtMost blockOk.height (blockTxids blockOk) 6) ∧
      (InputStats.from_block blockOk).inputs_spending_prev_144_blocks =
        countInputs blockOk (ageAtMost blockOk.height (blockTxids blockOk) 144) ∧
      (InputStats.from_block blockOk).inputs_spending_prev_2016_blocks =
        countInputs blockOk (ageAtMost blockOk.height (blockTxids blockOk) 2016) ∧
      (InputStats.from_block blockOk).inputs_spend_in_same_block =
        countInputs blockOk (ageIsZero blockOk.height (blockTxids blockOk)) ∧
      (InputStats.from_block blockOk).inputs_spend_in_same_block ≤
        (InputStats.from_block blockOk).inputs_spending_prev_1_blocks ∧
      (InputStats.from_block blockOk).inputs_spending_prev_1_blocks ≤
        (InputStats.from_block blockOk).inputs_spending_prev_6_blocks ∧
      (InputStats.from_block blockOk).inputs_spending_prev_6_blocks ≤
        (InputStats.from_block blockOk).inputs_spending_prev_144_blocks ∧
      (InputStats.from_block blockOk).inputs_spending_prev_144_blocks ≤
        (InputStats.from_block blockOk).inputs_spending_prev_2016_blocks :=
  ⟨by decide, input_age_counters_correct blockOk (by decide)⟩

/-! ## Claim theorems: BlockStats and Stats -/

/-- C9: on success, `transactions` is the number of transactions, `inputs`
and `outputs` are the sums of the per-transaction input and output counts,
and `empty` holds exactly when the block has a single transaction. -/
theorem block_counts_correct (b : Block) (bs : BlockStats)
    (hok : BlockStats.from_block b = RunResult.ok bs) :
    bs.transactions = b.txdata.length ∧
      bs.inputs = (b.txdata.map (fun tx => tx.input.length)).sum ∧
      bs.outputs = (b.txdata.map (fun tx => tx.output.length)).sum ∧
      (bs.empty = true ↔ b.txdata.length = 1) := by
  rw [BlockStats.from_block] at hok
  cases h0 : b.txdata.head? with
  | none => simp only [h0] at hok; exact (RunResult.noConfusion hok)
  | some tx0 =>
      simp only [h0] at hok
      cases hraw : tx0.raw with
      | none => simp only [hraw] at hok; exact (RunResult.noConfusion hok)
      | some cb =>
          simp only [hraw] at hok
          split_ifs at hok
          all_goals first
            | exact (RunResult.noConfusion hok)
            | (injection hok with h; subst h; exact ⟨rfl, rfl, rfl, by simp⟩)

/-- Witness for `block_counts_correct` at the concrete block `blockOk`. -/
theorem block_counts_witness :
    BlockStats.from_block blockOk = RunResult.ok blockOkStats ∧
      blockOkStats.transactions = blockOk.txdata.length ∧
      blockOkStats.inputs = (blockOk.txdata.map (fun tx => tx.input.length)).sum ∧
      blockOkStats.outputs = (blockOk.txdata.map (fun tx => tx.output.length)).sum ∧
      (blockOkStats.empty = true ↔ blockOk.txdata.length = 1) :=
  ⟨by decide, block_counts_correct blockOk blockOkStats (by decide)⟩

/-- C8: on success, `coinbase_locktime_set` holds iff the decoded coinbase's
consensus lock-time is non-zero, and `coinbase_locktime_set_bip54` holds iff
that lock-time equals `height − 1` and some coinbase input sequence enables
the absolute lock-time (is not `0xFFFFFFFF`). -/
theorem coinbase_locktime_flags_correct (b : Block) (bs : BlockStats)
    (tx0 : BlockTx) (cb : ConsensusTx)
    (hok : BlockStats.from_block b = RunResult.ok bs)
    (h0 : b.txdata.head? = some tx0) (hraw : tx0.raw = some cb) :
    (bs.coinbase_locktime_set = true ↔ cb.lockTime ≠ 0) ∧
      (bs.coinbase_locktime_set_bip54 = true ↔
        ((cb.lockTime : Int) = b.height - 1 ∧
          ∃ q ∈ cb.inputSequences, q ≠ 0xFFFFFFFF)) := by
  rw [BlockStats.from_block] at hok
  simp only [h0, hraw] at hok
  split_ifs at hok
  all_goals first
    | exact (RunResult.noConfusion hok)
    | (injection hok with h; subst h;
        exact ⟨by simp, by simp [enablesAbsoluteLockTime, List.any_eq_true]⟩)

/-- Witness for `coinbase_locktime_flags_correct` at `blockOk`, whose
coinbase decodes to lock-time 9 = height − 1 with sequence 0. -/
theorem coinbase_locktime_flags_witness :
    BlockStats.from_block blockOk = RunResult.ok blockOkStats ∧
      blockOk.txdata.head? = some cbTxBip54 ∧
      cbTxBip54.raw = some ⟨9, [0], true⟩ ∧
      ((blockOkStats.coinbase_locktime_set = true ↔
          (⟨9, [0], true⟩ : ConsensusTx).lockTime ≠ 0) ∧
        (blockOkStats.coinbase_locktime_set_bip54 = true ↔
          (((⟨9, [0], true⟩ : ConsensusTx).lockTime : Int) = blockOk.height - 1 ∧
            ∃ q ∈ (⟨9, [0], true⟩ : ConsensusTx).inputSequences, q ≠ 0xFFFFFFFF))) :=
  ⟨by decide, by decide, by decide,
    coinbase_locktime_flags_correct blockOk blockOkStats cbTxBip54 ⟨9, [0], true⟩
      (by decide) (by decide) (by decide)⟩

/-- A non-empty block never makes `BlockStats::from_block` panic: the only
panic branch is the missing-coinbase `expect`. -/
theorem BlockStats_from_block_no_panic (b : Block) (hne : b.txdata ≠ [])
    (msg : String) : BlockStats.from_block b ≠ RunResult.panics msg := by
  rw [BlockStats.from_block]
  cases h0 : b.txdata.head? with
  | none => exact absurd (List.head?_eq_none_iff.mp h0) hne
  | some tx0 =>
      simp only [h0]
      cases hraw : tx0.raw with
      | none => simp [hraw]
      | some cb => simp only [hraw]; split_ifs <;> simp

/-- On inputs where the unwrap cannot be reached (the fee is present, or
every input of the scanned list is a coinbase input), the run-level scan
agrees with the pure flag scan. -/
theorem processInputsRun_eq (tx : BlockTx) (txids : List Nat) :
    ∀ (l : List InputData) (newly ephF : Bool) (eph : List (Nat × Nat)),
      (tx.fee = none → l.all isCoinbaseInput = true) →
      processInputsRun tx txids newly ephF eph l =
        RunResult.ok (processInputs tx txids newly ephF eph l)
  | [], _, _, _, _ => rfl
  | InputData.coinbase :: rest, newly, ephF, eph, hfee => by
      simp only [processInputsRun, processInputs]
      exact processInputsRun_eq tx txids rest newly ephF eph
        (fun h => by simpa [isCoinbaseInput] using hfee h)
  | InputData.nonCoinbase t v po :: rest, newly, ephF, eph, hfee => by
      have hne : tx.fee ≠ none := by
        intro hf
        have h2 := hfee hf
        simp [isCoinbaseInput] at h2
      have hfd : decide (tx.fee = none) = false := decide_eq_false hne
      have IH := processInputsRun_eq tx txids rest
      simp only [processInputsRun, processInputs, hfd, Bool.and_false]
      by_cases hbrk : (((ephF || (decide ((t, v) ∈ eph) && ephSpendCriteria tx)) ||
          (eph.erase (t, v)).isEmpty) && (newly || decide (t ∈ txids))) = true
      · simp [hbrk]
      · simp only [Bool.false_eq_true, if_false, hbrk]
        exact IH _ _ _ (fun h => absurd h hne)

/-- Under the fee discipline, the run-level transaction loop never panics
and computes the counters of the pure loop. -/
theorem txScanRun_eq :
    ∀ (l : List BlockTx) (txids : List Nat) (eph : List (Nat × Nat)) (s : TxStats),
      l.all (fun tx => decide (tx.fee ≠ none) || tx.input.all isCoinbaseInput) = true →
      txScanRun txids eph s l = RunResult.ok (txScan txids eph s l)
  | [], _, _, _, _ => rfl
  | tx :: rest, txids, eph, s, hall => by
      rw [List.all_cons, Bool.and_eq_true] at hall
      have hfee : tx.fee = none → tx.input.all isCoinbaseInput = true := by
        intro hf
        have h1 := hall.1
        simp [hf] at h1
        exact List.all_eq_true.mpr h1
      rw [txScanRun, txScan,
        processInputsRun_eq tx txids tx.input false false eph hfee]
      exact txScanRun_eq rest _ _ _ hall.2

/-- C10 (counterexample): "at least one transaction and a representable
header time" does not make the panic branches of `Stats::from_block`
unreachable. `blockBadSig` satisfies the precondition yet panics in the
ECDSA signature-length match of `ScriptStats::from_block` (stats.rs line
560), and `blockBadFee` satisfies it yet panics in the scan's
`tx.fee.unwrap()` (stats.rs line 415) when its fee-less version-3 child
takes the staged outpoint. -/
theorem from_block_extra_panics_counterexample :
    (blockBadSig.txdata ≠ [] ∧ timestampRepresentable blockBadSig.time = true ∧
        Stats.from_block blockBadSig =
          RunResult.panics "ECDSA signature with fewer than 8 bytes") ∧
      (blockBadFee.txdata ≠ [] ∧ timestampRepresentable blockBadFee.time = true ∧
        Stats.from_block blockBadFee =
          RunResult.panics "called Option unwrap on a None value") := by
  refine ⟨⟨by decide, by decide, by decide⟩, by decide, by decide, by decide⟩

/-- C10 (amended): `Stats::from_block` panics via its two `expect`s on an
unrepresentable header timestamp or an empty transaction list; and the
panic branches are unreachable under the precondition "at least one
transaction, a representable header time, every transaction with a
non-coinbase input carries a fee (the adapter's fee discipline, which
guards `tx.fee.unwrap()`), and no ECDSA signature record is shorter than
8 bytes (which guards the `ScriptStats` signature-length panic)" — then
every outcome is a declared `StatsError` or a stats bundle. -/
theorem from_block_panic_conditions :
    (∀ b : Block, timestampRepresentable b.time = false →
        Stats.from_block b = RunResult.panics "invalid block header timestamp") ∧
      (∀ b : Block, timestampRepresentable b.time = true → b.txdata = [] →
        Stats.from_block b = RunResult.panics "block should have a coinbase tx") ∧
      (∀ b : Block, timestampRepresentable b.time = true → b.txdata ≠ [] →
        feeWF b = true → hasShortEcdsaSig b = false →
        ∀ msg : String, Stats.from_block b ≠ RunResult.panics msg) := by
  refine ⟨?_, ?_, ?_⟩
  · intro b h
    simp [Stats.from_block, h]
  · intro b h he
    simp [Stats.from_block, h, he, decodeTxs, BlockStats.from_block]
  · intro b h hne hfee hsig msg
    have htx : TxStats.from_block_run b = RunResult.ok (TxStats.from_block b) := by
      rw [TxStats.from_block_run, TxStats.from_block]
      exact txScanRun_eq b.txdata [] [] ⟨0, 0⟩ (by simpa [feeWF] using hfee)
    have hscript : ScriptStats.from_block_run b = RunResult.ok () := by
      simp [ScriptStats.from_block_run, hsig]
    rw [Stats.from_block]
    simp only [h]
    cases hd : decodeTxs b.txdata with
    | some e => simp
    | none =>
        cases hok : BlockStats.from_block b with
        | panics m => exact absurd hok (BlockStats_from_block_no_panic b hne m)
        | err e => simp
        | ok bs => simp [htx, hscript]

/-- Witness for `from_block_panic_conditions`: the header time `2^63`
(whose `i64` cast is `i64::MIN`) makes `Stats::from_block` panic, and the
well-formed `blockOk` discharges every hypothesis of the no-panic part. -/
theorem from_block_panic_conditions_witness :
    (timestampRepresentable blockBadTime.time = false ∧
        Stats.from_block blockBadTime =
          RunResult.panics "invalid block header timestamp") ∧
      (timestampRepresentable blockOk.time = true ∧ blockOk.txdata ≠ [] ∧
        feeWF blockOk = true ∧ hasShortEcdsaSig blockOk = false ∧
        Stats.from_block blockOk ≠ RunResult.panics "unreachable") :=
  ⟨⟨by decide, from_block_panic_conditions.1 blockBadTime (by decide)⟩,
    by decide, by decide, by decide, by decide,
    from_block_panic_conditions.2.2 blockOk (by decide) (by decide) (by decide)
      (by decide) "unreachable"⟩

/-! ## Claim theorem: the orchestrator's fetch height -/

/-- C3: the fetch-height computation is not total over small tips. At tip 5
the `u64` subtraction `5 − 6` underflows: under release semantics it wraps
to `2^64 − 1` (and `max(0, ·)` over `u64` cannot clamp it; a debug build
panics on the overflow instead), whereas the spec's `max(0, tip − 6)` is 0. -/
theorem fetch_height_underflow_at_small_tip :
    fetch_height 5 = 2 ^ 64 - 1 ∧ fetch_height_spec 5 = 0 ∧
      (fetch_height 5 : Int) ≠ fetch_height_spec 5 :=
  ⟨by decide, by decide, by decide⟩

end MainnetObserver
